import Mathlib

/-!
Shallow embedding of `src/supermercado.py`.

Files are modelled as `Option (List (List String))`: `none` is a missing file
(Python `FileNotFoundError`), `some rows` is the csv-parsed list of rows,
header row included.  Python `dict` is modelled as an association list in
insertion order; assigning to an existing key updates the value in place and
keeps the key's original position, as Python dicts do.  Python `float` money
values are modelled as `ℚ`; `float(s)` / `int(s)` are modelled on plain
decimal literals (optional sign, digits, one optional decimal point,
surrounding whitespace), which covers every literal the program's csv data
can contain short of exponent/inf/nan forms.
-/

/-- One product entry: the value stored in the `productos` dict
(`{'nombre': row[1], 'precio': float(row[2]), 'cant': int(row[3])}`). -/
structure Producto where
  nombre : String
  precio : ℚ
  cant : ℤ
deriving DecidableEq

/-- Python dict in insertion order. -/
abbrev Dict (α : Type) := List (String × α)

/-- `d[k] = v`: update in place if `k` is present (keeping its position),
else append at the end — Python dict assignment semantics. -/
def dictInsert {α : Type} : Dict α → String → α → Dict α
  | [], k, v => [(k, v)]
  | (k', v') :: rest, k, v =>
    if k' = k then (k, v) :: rest else (k', v') :: dictInsert rest k v

/-- `d.get(k)` / `k in d`. -/
def dictLookup {α : Type} : Dict α → String → Option α
  | [], _ => none
  | (k', v') :: rest, k => if k' = k then some v' else dictLookup rest k

/-- Digits of a numeral to its value (caller has checked `allDigits`). -/
def natOfDigits (cs : List Char) : Nat :=
  cs.foldl (fun n c => 10 * n + (c.toNat - 48)) 0

def allDigits (cs : List Char) : Bool :=
  cs.all (fun c => c.isDigit)

/-- Strip leading and trailing whitespace, Python `str.strip()`. -/
def pyStripList (cs : List Char) : List Char :=
  ((cs.dropWhile Char.isWhitespace).reverse.dropWhile Char.isWhitespace).reverse

def pyStrip (s : String) : String :=
  String.mk (pyStripList s.toList)

/-- Python `int(s)`: optional sign then decimal digits, whitespace stripped;
`ValueError` is `none`. -/
def parseIntList : List Char → Option ℤ
  | '-' :: cs =>
    if cs ≠ [] ∧ allDigits cs then some (-(natOfDigits cs : ℤ)) else none
  | '+' :: cs =>
    if cs ≠ [] ∧ allDigits cs then some ((natOfDigits cs : ℤ)) else none
  | cs =>
    if cs ≠ [] ∧ allDigits cs then some ((natOfDigits cs : ℤ)) else none

def parseInt (s : String) : Option ℤ :=
  parseIntList (pyStripList s.toList)

/-- Python `float(s)` on plain decimal literals: optional sign, digits with at
most one decimal point and at least one digit, whitespace stripped;
`ValueError` is `none`. -/
def parseFloatList (cs : List Char) : Option ℚ :=
  let ip := cs.takeWhile (fun c => c ≠ '.')
  match cs.dropWhile (fun c => c ≠ '.') with
  | [] =>
    if ip ≠ [] ∧ allDigits ip then some ((natOfDigits ip : ℚ)) else none
  | _ :: fp =>
    if (ip ≠ [] ∨ fp ≠ []) ∧ allDigits ip ∧ allDigits fp then
      some ((natOfDigits ip : ℚ) + (natOfDigits fp : ℚ) / (10 : ℚ) ^ fp.length)
    else none

def parseFloatSigned : List Char → Option ℚ
  | '-' :: cs => (parseFloatList cs).map (fun q => -q)
  | '+' :: cs => parseFloatList cs
  | cs => parseFloatList cs

def parseFloat (s : String) : Option ℚ :=
  parseFloatSigned (pyStripList s.toList)

/-- Row access `row[i]` (guarded by a length test at every use site). -/
def campo (row : List String) (i : Nat) : String :=
  row.getD i ""

/-! ### Loader: `_cargar_productos` (supermercado.py lines 12-32) -/

/-- Loop body for one data row: rows with at least 4 columns and numeric
price/quantity are stored (`productos[row[0]] = {...}`); a `ValueError` in
`float(row[2])`/`int(row[3])` is caught and the row skipped. -/
def cargarRow (d : Dict Producto) (row : List String) : Dict Producto :=
  if 4 ≤ row.length then
    match parseFloat (campo row 2), parseInt (campo row 3) with
    | some p, some c => dictInsert d (campo row 0) ⟨campo row 1, p, c⟩
    | _, _ => d
  else d

/-- `_cargar_productos()`: missing file is caught and yields the empty dict;
`next(reader)` skips the header — on an empty file it raises `StopIteration`,
which nothing catches here (`none` = the exception escapes). -/
def cargarProductos (file : Option (List (List String))) :
    Option (Dict Producto) :=
  match file with
  | none => some []
  | some [] => none
  | some (_ :: rows) => some (rows.foldl cargarRow [])

/-- A row the loader accepts: `len(row) >= 4` with numeric price and
quantity. -/
def filaValida (row : List String) : Bool :=
  decide (4 ≤ row.length) && (parseFloat (campo row 2)).isSome
    && (parseInt (campo row 3)).isSome

/-- The `Producto` a valid row is stored as. -/
def entradaDe (row : List String) : Producto :=
  ⟨campo row 1, (parseFloat (campo row 2)).getD 0, (parseInt (campo row 3)).getD 0⟩

/-! ### `productoMasCaro` (lines 35-49) -/

/-- `max(xs, key=...)` starting from first element `x`: Python `max` keeps
the earliest element on ties (a later element replaces the current maximum
only when strictly greater). -/
def maxEntry {α : Type} (f : α → ℚ) (x : String × α) (xs : List (String × α)) :
    String × α :=
  xs.foldl (fun b y => if f b.2 < f y.2 then y else b) x

/-- `productoMasCaro(productos_data)`. -/
def productoMasCaro (d : Dict Producto) : String × ℚ :=
  match d with
  | [] => ("N/A", 0)
  | e :: rest =>
    let m := maxEntry (fun p => p.precio) e rest
    (m.2.nombre, m.2.precio)

/-! ### `valorTotalBodega` (lines 52-60) -/

/-- `valorTotalBodega(productos_data)`. -/
def valorTotalBodega (d : Dict Producto) : ℚ :=
  match d with
  | [] => 0
  | _ => (d.map (fun e => e.2.precio * (e.2.cant : ℚ))).sum

/-! ### `productoConMasIngresos` (lines 63-94) -/

/-- One iteration of the items loop.  `int(row[2])` is evaluated before the
membership test; a `ValueError` there is only caught by the function-level
`except Exception` (`none` = exception raised).  Unknown product ids are
skipped; known ids accumulate `precio * cantidad` in insertion order. -/
def itemStep (d : Dict Producto) (ing : Dict ℚ) (row : List String) :
    Option (Dict ℚ) :=
  if 3 ≤ row.length then
    match parseInt (campo row 2) with
    | none => none
    | some cant =>
      match dictLookup d (campo row 1) with
      | none => some ing
      | some p =>
        some (dictInsert ing (campo row 1)
          ((dictLookup ing (campo row 1)).getD 0 + p.precio * (cant : ℚ)))
  else some ing

/-- The items loop; `none` propagates a raised exception. -/
def procesarItems (d : Dict Producto) : List (List String) → Dict ℚ →
    Option (Dict ℚ)
  | [], ing => some ing
  | row :: rows, ing =>
    match itemStep d ing row with
    | none => none
    | some ing' => procesarItems d rows ing'

/-- `productoConMasIngresos(productos_data)`.  Empty mapping returns
`("N/A", 0)` before the file is even opened; a missing file returns
`("ERROR", 0)` via `except FileNotFoundError`; an empty file makes
`next(reader)` raise `StopIteration`, and any exception in the loop
(e.g. a non-numeric quantity) lands in `except Exception` — both return
`("ERROR", 0)`.  An empty accumulator returns `("N/A", 0)`; otherwise the
first maximal entry wins and its name is looked up in the mapping. -/
def productoConMasIngresos (d : Dict Producto)
    (file : Option (List (List String))) : String × ℚ :=
  match d with
  | [] => ("N/A", 0)
  | _ =>
    match file with
    | none => ("ERROR", 0)
    | some [] => ("ERROR", 0)
    | some (_ :: rows) =>
      match procesarItems d rows [] with
      | none => ("ERROR", 0)
      | some ing =>
        match ing with
        | [] => ("N/A", 0)
        | e :: rest =>
          let m := maxEntry (fun q => q) e rest
          match dictLookup d m.1 with
          | none => ("ERROR", 0)
          | some p => (p.nombre, m.2)

/-! ### `totalVentasPeriodo` (lines 97-133) -/

structure Fecha where
  year : Nat
  month : Nat
  day : Nat
deriving DecidableEq

def esBisiesto (y : Nat) : Bool :=
  (y % 4 = 0 && y % 100 ≠ 0) || y % 400 = 0

def diasEnMes (m y : Nat) : Nat :=
  if m = 2 then (if esBisiesto y then 29 else 28)
  else if m = 4 ∨ m = 6 ∨ m = 9 ∨ m = 11 then 30
  else 31

/-- Split a character list on a separator (the field structure the `strptime`
format string imposes). -/
def splitOnChar (sep : Char) : List Char → List (List Char)
  | [] => [[]]
  | c :: cs =>
    if c = sep then [] :: splitOnChar sep cs
    else
      match splitOnChar sep cs with
      | [] => [[c]]
      | g :: gs => (c :: g) :: gs

/-- CPython `strptime` `%d`/`%m` field: one or two digits whose value lies in
the given range (`00` and `0` are rejected by the pattern). -/
def parseCampoNat (lo hi : Nat) (cs : List Char) : Option Nat :=
  if (cs.length = 1 ∨ cs.length = 2) ∧ allDigits cs then
    let n := natOfDigits cs
    if lo ≤ n ∧ n ≤ hi then some n else none
  else none

/-- CPython `strptime` `%Y` field: exactly four digits; `datetime` then
rejects year 0 (`MINYEAR` is 1). -/
def parseAnio (cs : List Char) : Option Nat :=
  if cs.length = 4 ∧ allDigits cs then
    let n := natOfDigits cs
    if 1 ≤ n then some n else none
  else none

/-- Assemble a date, rejecting a day out of range for the month
(`ValueError: day is out of range for month`). -/
def mkFecha (dd mm yy : Nat) : Option Fecha :=
  if dd ≤ diasEnMes mm yy then some ⟨yy, mm, dd⟩ else none

/-- `datetime.strptime(s, "%d/%m/%Y")`. -/
def strptimeDMYslash (s : String) : Option Fecha :=
  match splitOnChar '/' s.toList with
  | [d, m, y] =>
    match parseCampoNat 1 31 d, parseCampoNat 1 12 m, parseAnio y with
    | some dd, some mm, some yy => mkFecha dd mm yy
    | _, _, _ => none
  | _ => none

/-- `datetime.strptime(s, "%Y-%m-%d")`. -/
def strptimeYMD (s : String) : Option Fecha :=
  match splitOnChar '-' s.toList with
  | [y, m, d] =>
    match parseAnio y, parseCampoNat 1 12 m, parseCampoNat 1 31 d with
    | some yy, some mm, some dd => mkFecha dd mm yy
    | _, _, _ => none
  | _ => none

/-- `datetime.strptime(s, "%d-%m-%Y")`. -/
def strptimeDMYdash (s : String) : Option Fecha :=
  match splitOnChar '-' s.toList with
  | [d, m, y] =>
    match parseCampoNat 1 31 d, parseCampoNat 1 12 m, parseAnio y with
    | some dd, some mm, some yy => mkFecha dd mm yy
    | _, _, _ => none
  | _ => none

/-- The date-parsing cascade of lines 111-119: `%d/%m/%Y` when the string
contains a slash, else `%Y-%m-%d` falling back to `%d-%m-%Y` when it contains
a dash, else skip (`none`). -/
def parseFecha (s : String) : Option Fecha :=
  if s.toList.contains '/' then strptimeDMYslash s
  else if s.toList.contains '-' then
    match strptimeYMD s with
    | some f => some f
    | none => strptimeDMYdash s
  else none

/-- One iteration of the sales loop: rows shorter than 3 columns are skipped;
`float(row[2])` is evaluated first, then the stripped date is parsed; any
`ValueError` skips the row; a parsed date adds the amount exactly when month
and year match. -/
def procesarVenta (mes anio : Nat) (total : ℚ) (row : List String) : ℚ :=
  if 3 ≤ row.length then
    match parseFloat (campo row 2) with
    | none => total
    | some monto =>
      match parseFecha (pyStrip (campo row 1)) with
      | none => total
      | some f => if f.month = mes ∧ f.year = anio then total + monto else total
  else total

/-- `totalVentasPeriodo(mes, anio)`: missing file returns `0.0`; on an empty
file `next(reader)` raises `StopIteration`, caught by `except Exception`,
also returning `0.0`. -/
def totalVentasPeriodo (mes anio : Nat)
    (file : Option (List (List String))) : ℚ :=
  match file with
  | none => 0
  | some [] => 0
  | some (_ :: rows) => rows.foldl (procesarVenta mes anio) 0

/-! ### Report assembly: `generar_informe_completo` (lines 138-169) -/

def MES_REPORTE : Nat := 10
def ANIO_REPORTE : Nat := 2010

/-- Insert thousands separators into a reversed digit list, three digits at
a time (the `,` of the `:,.2f` format specifier). -/
def agruparRev : List Char → List Char
  | c1 :: c2 :: c3 :: rest@(_ :: _) => c1 :: c2 :: c3 :: ',' :: agruparRev rest
  | l => l

/-- Round to the nearest integer, ties to even — the rounding of `format`. -/
def roundHalfEven (q : ℚ) : ℤ :=
  let f := ⌊q⌋
  let r := q - f
  if r < 1 / 2 then f
  else if 1 / 2 < r then f + 1
  else if f % 2 = 0 then f else f + 1

/-- Python `f"{x:,.2f}"` on the ℚ model: two decimals, comma-grouped
integer part. -/
def formatMoney (x : ℚ) : String :=
  let c := roundHalfEven (100 * x)
  let sgn := if c < 0 then "-" else ""
  let n := c.natAbs
  let ent := String.mk (agruparRev (toString (n / 100)).toList.reverse).reverse
  let cent := n % 100
  sgn ++ ent ++ "." ++ (if cent < 10 then "0" else "") ++ toString cent

/-- Python `f"{m:02d}"`. -/
def formatMes2 (m : Nat) : String :=
  (if m < 10 then "0" else "") ++ toString m

/-- The `lineas_informe` list of lines 152-160, exactly as built. -/
def lineasInforme (nombreCaro : String) (valorBodega : ℚ)
    (nombreIngresos : String) (ventasPeriodo : ℚ) : List String :=
  ["--- INFORME DE GESTIÓN SUPERMERCADO SOOS ---",
   "\n============================================\n",
   "El producto más caro es **" ++ nombreCaro ++ "**.",
   "El valor total de la bodega es de **$" ++ formatMoney valorBodega ++ "**.",
   "El producto con más ingresos es **" ++ nombreIngresos ++ "**.",
   "En el período de **" ++ formatMes2 MES_REPORTE ++ "/" ++
     toString ANIO_REPORTE ++ "**, el total de ventas es de **$" ++
     formatMoney ventasPeriodo ++ "**.",
   "\n============================================\n"]

/-- The three input files of one run. -/
structure Archivos where
  productos : Option (List (List String))
  items : Option (List (List String))
  ventas : Option (List (List String))
deriving DecidableEq

/-- `generar_informe_completo()`, returning the text written to
`informe.txt` (`'\n'.join(lineas_informe)`); `none` when the uncaught
`StopIteration` from an empty products file aborts the run before any
report is written. -/
def generarInformeCompleto (a : Archivos) : Option String :=
  match cargarProductos a.productos with
  | none => none
  | some d =>
    let caro := productoMasCaro d
    let valorBodega := valorTotalBodega d
    let ingresos := productoConMasIngresos d a.items
    let ventasPeriodo := totalVentasPeriodo MES_REPORTE ANIO_REPORTE a.ventas
    some (String.intercalate "\n"
      (lineasInforme caro.1 valorBodega ingresos.1 ventasPeriodo))

/-! ### Dictionary lemmas -/

theorem dictLookup_insert_self {α : Type} (d : Dict α) (k : String) (v : α) :
    dictLookup (dictInsert d k v) k = some v := by
  induction d with
  | nil => simp [dictInsert, dictLookup]
  | cons e rest ih =>
    by_cases h : e.1 = k
    · simp [dictInsert, dictLookup, h]
    · simp [dictInsert, dictLookup, h, ih]

theorem dictLookup_insert_ne {α : Type} (d : Dict α) (k' k : String) (v : α)
    (h : k' ≠ k) : dictLookup (dictInsert d k' v) k = dictLookup d k := by
  induction d with
  | nil => simp [dictInsert, dictLookup, h]
  | cons e rest ih =>
    by_cases he : e.1 = k'
    · simp [dictInsert, dictLookup, he, h]
    · simp [dictInsert, dictLookup, he, ih]

/-! ### Loader lemmas -/

theorem cargarRow_valid (d : Dict Producto) (row : List String)
    (h : filaValida row = true) :
    cargarRow d row = dictInsert d (campo row 0) (entradaDe row) := by
  have h' := h
  simp only [filaValida, Bool.and_eq_true, decide_eq_true_eq,
    Option.isSome_iff_exists] at h'
  obtain ⟨⟨hlen, p, hp⟩, c, hc⟩ := h'
  simp [cargarRow, hlen, hp, hc, entradaDe]

theorem cargarRow_invalid (d : Dict Producto) (row : List String)
    (h : filaValida row = false) : cargarRow d row = d := by
  unfold cargarRow
  by_cases hlen : 4 ≤ row.length
  · cases hp : parseFloat (campo row 2) with
    | none => simp [hlen, hp]
    | some p =>
      cases hc : parseInt (campo row 3) with
      | none => simp [hlen, hp, hc]
      | some c =>
        exfalso
        simp [filaValida, hlen, hp, hc] at h
  · simp [hlen]

theorem cargar_foldl_filter (rows : List (List String)) :
    ∀ d : Dict Producto,
      rows.foldl cargarRow d = (rows.filter filaValida).foldl cargarRow d := by
  induction rows with
  | nil => intro d; rfl
  | cons r rs ih =>
    intro d
    by_cases h : filaValida r = true
    · simp [List.filter_cons, h, List.foldl_cons, ih]
    · have h' : filaValida r = false := by
        cases hb : filaValida r
        · rfl
        · exact absurd hb h
      simp [List.filter_cons, h', List.foldl_cons, ih, cargarRow_invalid d r h']

/-- C8: the loader keeps exactly the rows with at least 4 columns and numeric
price and quantity; invalid rows are skipped without affecting the fold; a
missing products file yields the empty mapping without aborting. -/
theorem claim_C8 :
    (∀ (hdr : List String) (rows : List (List String)),
      cargarProductos (some (hdr :: rows)) =
        some ((rows.filter filaValida).foldl cargarRow [])) ∧
    (∀ (d : Dict Producto) row, filaValida row = false → cargarRow d row = d) ∧
    cargarProductos none = some [] := by
  refine ⟨?_, ?_, rfl⟩
  · intro hdr rows
    simp [cargarProductos, cargar_foldl_filter]
  · exact cargarRow_invalid

theorem claim_C8_witness :
    filaValida ["solo"] = false ∧ cargarRow [] ["solo"] = [] :=
  ⟨by decide, claim_C8.2.1 [] ["solo"] (by decide)⟩

/-- C10: when a products file holds several valid rows with the same id, the
loaded mapping binds that id to the data of the last such row. -/
theorem claim_C10 (hdr : List String) (rows : List (List String)) (id : String)
    (last : List String)
    (h : (rows.filter
        (fun r => filaValida r && decide (campo r 0 = id))).getLast? = some last) :
    cargarProductos (some (hdr :: rows)) = some (rows.foldl cargarRow []) ∧
    dictLookup (rows.foldl cargarRow []) id = some (entradaDe last) := by
  refine ⟨rfl, ?_⟩
  induction rows using List.reverseRecOn with
  | nil => simp at h
  | append_singleton rs r ih =>
    rw [List.foldl_append, List.foldl_cons, List.foldl_nil]
    rw [List.filter_append] at h
    by_cases hr : (filaValida r && decide (campo r 0 = id)) = true
    · have hv : filaValida r = true := by
        simp only [Bool.and_eq_true] at hr; exact hr.1
      have hid : campo r 0 = id := by
        simp only [Bool.and_eq_true, decide_eq_true_eq] at hr; exact hr.2
      have hfr :
          [r].filter (fun r => filaValida r && decide (campo r 0 = id)) = [r] := by
        simp [List.filter_cons, hr]
      rw [hfr, List.getLast?_concat] at h
      have hlast : r = last := Option.some.inj h
      rw [cargarRow_valid _ _ hv, hid, dictLookup_insert_self, hlast]
    · have hfr :
          [r].filter (fun r => filaValida r && decide (campo r 0 = id)) = [] := by
        simp only [List.filter_cons, List.filter_nil]
        rw [if_neg hr]
      rw [hfr, List.append_nil] at h
      have step := ih h
      by_cases hv : filaValida r = true
      · have hid : campo r 0 ≠ id := by
          intro he
          exact hr (by simp [hv, he])
        rw [cargarRow_valid _ _ hv, dictLookup_insert_ne _ _ _ _ hid]
        exact step
      · have hv' : filaValida r = false := by
          cases hb : filaValida r
          · rfl
          · exact absurd hb hv
        rw [cargarRow_invalid _ _ hv']
        exact step

theorem claim_C10_witness :
    dictLookup
      ([["P1", "Uno", "10", "2"], ["P1", "Dos", "25", "1"]].foldl cargarRow [])
      "P1" = some (entradaDe ["P1", "Dos", "25", "1"]) :=
  (claim_C10 ["id", "nombre", "precio", "cant"]
    [["P1", "Uno", "10", "2"], ["P1", "Dos", "25", "1"]] "P1"
    ["P1", "Dos", "25", "1"] (by decide)).2

/-! ### Revenue aggregator: error paths -/

/-- C1 counterexample: with an empty product mapping and a missing items
file, `productoConMasIngresos` returns `("N/A", 0)` — the empty-mapping
check fires before the file is ever opened — not the `("ERROR", 0)` sentinel
the claim requires. -/
theorem claim_C1_cex :
    productoConMasIngresos [] none = ("N/A", 0) ∧
    productoConMasIngresos [] none ≠ ("ERROR", 0) :=
  ⟨rfl, by decide⟩

/-- C1 (amended): for every NON-EMPTY product mapping, a missing items file
makes `productoConMasIngresos` return the `("ERROR", 0)` sentinel; the empty
mapping instead short-circuits to `("N/A", 0)` without touching the file. -/
theorem claim_C1 (d : Dict Producto) (h : d ≠ []) :
    productoConMasIngresos d none = ("ERROR", 0) ∧
    productoConMasIngresos [] none = ("N/A", 0) := by
  refine ⟨?_, rfl⟩
  match d with
  | [] => exact absurd rfl h
  | e :: rest => rfl

theorem claim_C1_witness :
    productoConMasIngresos [("P1", ⟨"Uno", 10, 2⟩)] none = ("ERROR", 0) :=
  (claim_C1 [("P1", ⟨"Uno", 10, 2⟩)] (List.cons_ne_nil _ _)).1

/-- Once a row raises, the whole items loop aborts. -/
theorem procesarItems_abort (d : Dict Producto) (row : List String)
    (post : List (List String)) (hlen : 3 ≤ row.length)
    (hbad : parseInt (campo row 2) = none) :
    ∀ (pre : List (List String)) (ing : Dict ℚ),
      procesarItems d (pre ++ row :: post) ing = none := by
  intro pre
  induction pre with
  | nil =>
    intro ing
    simp [procesarItems, itemStep, hlen, hbad]
  | cons r rs ih =>
    intro ing
    rw [List.cons_append]
    unfold procesarItems
    cases itemStep d ing r with
    | none => rfl
    | some ing' => exact ih ing'

/-- C2 counterexample: with the one-product mapping `{"P1": Uno, 10, 2}`, an
items file holding the malformed row `["1", "P1", "x"]` next to the good row
`["2", "P1", "3"]` yields `("ERROR", 0)`, while the same file with the
malformed row removed yields `("Uno", 30)`: the malformed row is not skipped,
and it alone produces the error sentinel. -/
theorem claim_C2_cex :
    productoConMasIngresos [("P1", ⟨"Uno", 10, 2⟩)]
      (some [["id", "prod", "cant"], ["1", "P1", "x"], ["2", "P1", "3"]]) =
      ("ERROR", 0) ∧
    productoConMasIngresos [("P1", ⟨"Uno", 10, 2⟩)]
      (some [["id", "prod", "cant"], ["2", "P1", "3"]]) = ("Uno", 30) ∧
    (("ERROR", 0) : String × ℚ) ≠ ("Uno", 30) := by
  refine ⟨by decide, ?_, by decide⟩
  simp [productoConMasIngresos, procesarItems, itemStep, parseInt, pyStripList,
    parseIntList, allDigits, natOfDigits, campo, dictLookup, dictInsert, maxEntry]
  norm_num

/-- C2 (amended): in `productoConMasIngresos`, an items row with fewer than 3
columns is skipped and the scan continues, but a row of 3 or more columns
whose quantity field is non-numeric raises inside the loop, is caught by the
function-level `except Exception`, and makes the whole aggregation return
`("ERROR", 0)` (for any non-empty product mapping). -/
theorem claim_C2 :
    (∀ (d : Dict Producto) (ing : Dict ℚ) (row : List String),
      row.length < 3 → itemStep d ing row = some ing) ∧
    (∀ (d : Dict Producto) (hdr row : List String)
      (pre post : List (List String)), d ≠ [] → 3 ≤ row.length →
      parseInt (campo row 2) = none →
      productoConMasIngresos d (some (hdr :: (pre ++ row :: post))) =
        ("ERROR", 0)) := by
  constructor
  · intro d ing row hlen
    simp [itemStep, Nat.not_le.mpr hlen]
  · intro d hdr row pre post hd hlen hbad
    match d with
    | [] => exact absurd rfl hd
    | e :: rest =>
      simp [productoConMasIngresos, procesarItems_abort _ _ _ hlen hbad]

theorem claim_C2_witness :
    itemStep [] [] ["solo"] = some [] ∧
    productoConMasIngresos [("P1", ⟨"Uno", 10, 2⟩)]
      (some (["id", "prod", "cant"] :: ([] ++ ["1", "P1", "x"] :: []))) =
      ("ERROR", 0) :=
  ⟨claim_C2.1 [] [] ["solo"] (by decide),
   claim_C2.2 [("P1", ⟨"Uno", 10, 2⟩)] ["id", "prod", "cant"] ["1", "P1", "x"]
     [] [] (List.cons_ne_nil _ _) (by decide) (by decide)⟩

/-! ### Report shape -/

/-- C3 counterexample: the `lineas_informe` list has 7 entries (title,
separator, four findings, closing separator), not 6 as the claim counts
them. -/
theorem claim_C3_cex :
    (lineasInforme "a" 0 "b" 0).length = 7 ∧
    (lineasInforme "a" 0 "b" 0).length ≠ 6 := by
  constructor <;> simp [lineasInforme]

/-- C3 (amended): the orchestration assembles the report as exactly seven
list entries — title, separator, four findings, closing separator — joined
by newlines and written to the report file. -/
theorem claim_C3 :
    (∀ w x y z, (lineasInforme w x y z).length = 7) ∧
    (∀ (a : Archivos) (d : Dict Producto), cargarProductos a.productos = some d →
      generarInformeCompleto a = some (String.intercalate "\n"
        (lineasInforme (productoMasCaro d).1 (valorTotalBodega d)
          (productoConMasIngresos d a.items).1
          (totalVentasPeriodo MES_REPORTE ANIO_REPORTE a.ventas)))) := by
  constructor
  · intro w x y z
    simp [lineasInforme]
  · intro a d h
    simp [generarInformeCompleto, h]

theorem claim_C3_witness :
    generarInformeCompleto ⟨none, none, none⟩ = some (String.intercalate "\n"
      (lineasInforme (productoMasCaro []).1 (valorTotalBodega [])
        (productoConMasIngresos [] none).1
        (totalVentasPeriodo MES_REPORTE ANIO_REPORTE none))) :=
  claim_C3.2 ⟨none, none, none⟩ [] rfl

/-! ### Determinism of the orchestration -/

/-- C9: the report content is a function of the three input files alone —
runs on identical inputs produce byte-identical report text. -/
theorem claim_C9 (a b : Archivos) (h1 : a.productos = b.productos)
    (h2 : a.items = b.items) (h3 : a.ventas = b.ventas) :
    generarInformeCompleto a = generarInformeCompleto b := by
  cases a
  cases b
  simp only at h1 h2 h3
  subst h1
  subst h2
  subst h3
  rfl

theorem claim_C9_witness :
    generarInformeCompleto ⟨some [], none, none⟩ =
      generarInformeCompleto ⟨some [], none, none⟩ :=
  claim_C9 ⟨some [], none, none⟩ ⟨some [], none, none⟩ rfl rfl rfl

/-! ### Inventory value -/

/-- C6: the inventory value is the sum of `precio * cant` over all entries
(0 for the empty mapping), is invariant under permutation of the entries,
and evaluates to 45 on the spec's two-product example. -/
theorem claim_C6 :
    (∀ d : Dict Producto,
      valorTotalBodega d = (d.map (fun e => e.2.precio * (e.2.cant : ℚ))).sum) ∧
    (∀ d d' : Dict Producto, d.Perm d' →
      valorTotalBodega d = valorTotalBodega d') ∧
    valorTotalBodega [("P1", ⟨"P1", 10, 2⟩), ("P2", ⟨"P2", 25, 1⟩)] = 45 := by
  have hsum : ∀ d : Dict Producto,
      valorTotalBodega d = (d.map (fun e => e.2.precio * (e.2.cant : ℚ))).sum := by
    intro d
    match d with
    | [] => simp [valorTotalBodega]
    | e :: rest => rfl
  refine ⟨hsum, ?_, ?_⟩
  · intro d d' hperm
    rw [hsum, hsum]
    exact List.Perm.sum_eq (hperm.map _)
  · rw [hsum]
    norm_num

theorem claim_C6_witness :
    valorTotalBodega [("P1", ⟨"P1", 10, 2⟩), ("P2", ⟨"P2", 25, 1⟩)] =
      valorTotalBodega [("P2", ⟨"P2", 25, 1⟩), ("P1", ⟨"P1", 10, 2⟩)] :=
  claim_C6.2.1 _ _ (List.Perm.swap _ _ _)

/-! ### First-maximum lemma for Python `max(..., key=...)` -/

/-- The fold behind `max(..., key=...)` returns an element of the list that
splits it as `pre ++ winner :: post`, with every earlier element strictly
below the winner (first-encountered tie-breaking) and every element at most
the winner. -/
theorem maxEntry_spec {α : Type} (f : α → ℚ) :
    ∀ (xs : List (String × α)) (x : String × α),
      ∃ pre post, x :: xs = pre ++ maxEntry f x xs :: post ∧
        (∀ e ∈ pre, f e.2 < f (maxEntry f x xs).2) ∧
        (∀ e ∈ x :: xs, f e.2 ≤ f (maxEntry f x xs).2) := by
  intro xs
  induction xs with
  | nil =>
    intro x
    refine ⟨[], [], rfl, by simp, ?_⟩
    intro e he
    simp only [List.mem_singleton] at he
    simp [maxEntry, he]
  | cons y ys ih =>
    intro x
    by_cases h : f x.2 < f y.2
    · have hstep : maxEntry f x (y :: ys) = maxEntry f y ys := by
        simp [maxEntry, h]
      obtain ⟨pre, post, hdec, hpre, hle⟩ := ih y
      rw [hstep]
      refine ⟨x :: pre, post, ?_, ?_, ?_⟩
      · rw [List.cons_append, ← hdec]
      · intro e he
        rcases List.mem_cons.mp he with he | he
        · subst he
          exact lt_of_lt_of_le h (hle y (List.mem_cons_self y ys))
        · exact hpre e he
      · intro e he
        rcases List.mem_cons.mp he with he | he
        · subst he
          exact le_of_lt (lt_of_lt_of_le h (hle y (List.mem_cons_self y ys)))
        · exact hle e he
    · have hstep : maxEntry f x (y :: ys) = maxEntry f x ys := by
        simp [maxEntry, h]
      have hyx : f y.2 ≤ f x.2 := le_of_not_lt h
      obtain ⟨pre, post, hdec, hpre, hle⟩ := ih x
      rw [hstep]
      cases pre with
      | nil =>
        rw [List.nil_append] at hdec
        have hx : x = maxEntry f x ys := (List.cons.injEq _ _ _ _ ▸ hdec).1
        refine ⟨[], y :: ys, ?_, by simp, ?_⟩
        · rw [List.nil_append, ← hx]
        · intro e he
          rcases List.mem_cons.mp he with he | he
          · rw [he]
            exact hle x (List.mem_cons_self x ys)
          · rcases List.mem_cons.mp he with he | he
            · rw [he]
              exact le_trans hyx (hle x (List.mem_cons_self x ys))
            · exact hle e (List.mem_cons_of_mem x he)
      | cons p pre' =>
        rw [List.cons_append] at hdec
        have hp : x = p := (List.cons.injEq _ _ _ _ ▸ hdec).1
        have hys : ys = pre' ++ maxEntry f x ys :: post :=
          (List.cons.injEq _ _ _ _ ▸ hdec).2
        have hxlt : f x.2 < f (maxEntry f x ys).2 := by
          have := hpre p (List.mem_cons_self p pre')
          rw [← hp] at this
          exact this
        refine ⟨x :: y :: pre', post, ?_, ?_, ?_⟩
        · rw [List.cons_append, List.cons_append, ← hys]
        · intro e he
          rcases List.mem_cons.mp he with he | he
          · rw [he]; exact hxlt
          · rcases List.mem_cons.mp he with he | he
            · rw [he]; exact lt_of_le_of_lt hyx hxlt
            · exact hpre e (List.mem_cons_of_mem p he)
        · intro e he
          rcases List.mem_cons.mp he with he | he
          · rw [he]
            exact hle x (List.mem_cons_self x ys)
          · rcases List.mem_cons.mp he with he | he
            · rw [he]
              exact le_trans hyx (hle x (List.mem_cons_self x ys))
            · exact hle e (List.mem_cons_of_mem x he)

/-- C5: `productoMasCaro` returns `("N/A", 0)` on the empty mapping; on a
non-empty mapping it returns the name and price of the entry with maximum
price, ties resolved in favour of the first-encountered entry; and on the
spec's example `{"P1": 10, "P2": 25}` it returns `("P2", 25)`. -/
theorem claim_C5 :
    productoMasCaro [] = ("N/A", 0) ∧
    (∀ d : Dict Producto, d ≠ [] →
      ∃ pre e post, d = pre ++ e :: post ∧
        productoMasCaro d = (e.2.nombre, e.2.precio) ∧
        (∀ e' ∈ pre, e'.2.precio < e.2.precio) ∧
        (∀ e' ∈ d, e'.2.precio ≤ e.2.precio)) ∧
    productoMasCaro [("P1", ⟨"P1", 10, 2⟩), ("P2", ⟨"P2", 25, 1⟩)] =
      ("P2", 25) := by
  refine ⟨rfl, ?_, ?_⟩
  · intro d hd
    match d with
    | [] => exact absurd rfl hd
    | x :: xs =>
      obtain ⟨pre, post, hdec, hpre, hle⟩ :=
        maxEntry_spec (fun p => p.precio) xs x
      exact ⟨pre, maxEntry (fun p => p.precio) x xs, post, hdec, rfl, hpre,
        fun e' he' => hle e' (hdec ▸ he')⟩
  · simp [productoMasCaro, maxEntry]
    norm_num

theorem claim_C5_witness :
    productoMasCaro [("P1", ⟨"Uno", 10, 2⟩)] =
      (("P1", (⟨"Uno", 10, 2⟩ : Producto)).2.nombre,
       ("P1", (⟨"Uno", 10, 2⟩ : Producto)).2.precio) := by
  obtain ⟨pre, e, post, hdec, heq, hpre, hle⟩ :=
    claim_C5.2.1 [("P1", ⟨"Uno", 10, 2⟩)] (List.cons_ne_nil _ _)
  have : pre = [] ∧ ("P1", (⟨"Uno", 10, 2⟩ : Producto)) = e ∧ post = [] := by
    match pre, hdec with
    | [], hdec =>
      refine ⟨rfl, ?_, ?_⟩
      · exact ((List.cons.injEq _ _ _ _ ▸ hdec).1)
      · exact ((List.cons.injEq _ _ _ _ ▸ hdec).2).symm
    | p :: pre', hdec =>
      exfalso
      have := (List.cons.injEq _ _ _ _ ▸ hdec).2
      exact List.noConfusion ((List.append_eq_nil.mp this.symm).2)
  rw [heq, ← this.2.1]

/-! ### Unknown product ids in the items scan -/

/-- Ids absent from the product mapping never enter the revenue
accumulator. -/
theorem procesarItems_unknown (d : Dict Producto) (k : String)
    (hk : dictLookup d k = none) :
    ∀ (rows : List (List String)) (ing0 ing : Dict ℚ),
      procesarItems d rows ing0 = some ing →
      dictLookup ing0 k = none → dictLookup ing k = none := by
  intro rows
  induction rows with
  | nil =>
    intro ing0 ing h h0
    simp only [procesarItems] at h
    rw [← Option.some.inj h]
    exact h0
  | cons row rs ih =>
    intro ing0 ing h h0
    unfold procesarItems at h
    unfold itemStep at h
    by_cases hlen : 3 ≤ row.length
    · simp only [hlen, if_true] at h
      cases hq : parseInt (campo row 2) with
      | none => rw [hq] at h; exact absurd h (by simp)
      | some cant =>
        rw [hq] at h
        cases hl : dictLookup d (campo row 1) with
        | none =>
          rw [hl] at h
          exact ih ing0 ing h h0
        | some p =>
          rw [hl] at h
          refine ih _ ing h ?_
          have hne : campo row 1 ≠ k := by
            intro he
            rw [he, hk] at hl
            exact Option.noConfusion hl
          rw [dictLookup_insert_ne _ _ _ _ hne]
          exact h0
    · simp only [hlen, if_false] at h
      exact ih ing0 ing h h0

/-- C7: a well-formed line item whose product id is absent from the mapping
leaves the revenue accumulator unchanged (contributes zero); such an id never
enters the accumulator, and whenever the aggregator returns a real winner
(neither sentinel) the winner is a product found in the mapping. -/
theorem claim_C7 :
    (∀ (d : Dict Producto) (ing : Dict ℚ) (row : List String) (c : ℤ),
      3 ≤ row.length → parseInt (campo row 2) = some c →
      dictLookup d (campo row 1) = none → itemStep d ing row = some ing) ∧
    (∀ (d : Dict Producto) (rows : List (List String)) (ing : Dict ℚ)
      (k : String), procesarItems d rows [] = some ing →
      dictLookup d k = none → dictLookup ing k = none) ∧
    (∀ (d : Dict Producto) (file : Option (List (List String))) (n : String)
      (r : ℚ), productoConMasIngresos d file = (n, r) →
      n ≠ "ERROR" → n ≠ "N/A" →
      ∃ k p, dictLookup d k = some p ∧ n = p.nombre) := by
  refine ⟨?_, ?_, ?_⟩
  · intro d ing row c hlen hq hl
    simp [itemStep, hlen, hq, hl]
  · intro d rows ing k h hk
    exact procesarItems_unknown d k hk rows [] ing h (by rfl)
  · intro d file n r hres hne hna
    match d with
    | [] =>
      exfalso
      exact hna (congrArg Prod.fst hres.symm)
    | e :: rest =>
      match file with
      | none => exact absurd (congrArg Prod.fst hres.symm) hne
      | some [] => exact absurd (congrArg Prod.fst hres.symm) hne
      | some (hdr :: rows) =>
        simp only [productoConMasIngresos] at hres
        cases hpi : procesarItems (e :: rest) rows [] with
        | none =>
          rw [hpi] at hres
          exact absurd (congrArg Prod.fst hres.symm) hne
        | some ing =>
          rw [hpi] at hres
          cases ing with
          | nil => exact absurd (congrArg Prod.fst hres.symm) hna
          | cons i irest =>
            simp only at hres
            cases hlk : dictLookup (e :: rest) (maxEntry (fun q => q) i irest).1 with
            | none =>
              rw [hlk] at hres
              exact absurd (congrArg Prod.fst hres.symm) hne
            | some p =>
              rw [hlk] at hres
              exact ⟨(maxEntry (fun q => q) i irest).1, p, hlk,
                (congrArg Prod.fst hres.symm)⟩

theorem claim_C7_witness :
    itemStep [("P1", ⟨"Uno", 10, 2⟩)] [] ["1", "PX", "3"] = some [] :=
  claim_C7.1 [("P1", ⟨"Uno", 10, 2⟩)] [] ["1", "PX", "3"] 3 (by decide)
    (by decide) (by decide)

/-! ### Date parsing and the period total -/

/-- C4: dates containing a slash are parsed day/month/year; dates containing
a dash are parsed year-month-day with day-month-year as fallback; the three
spellings "15/10/2010", "2010-10-15" and "15-10-2010" normalize to the same
calendar date; a row's amount is added exactly when the parsed month and year
match the configured targets; a sale on that date is included for month 10,
year 2010, in all three spellings, and a sale on "15/10/2011" is excluded. -/
theorem claim_C4 :
    parseFecha "15/10/2010" = some ⟨2010, 10, 15⟩ ∧
    parseFecha "2010-10-15" = some ⟨2010, 10, 15⟩ ∧
    parseFecha "15-10-2010" = some ⟨2010, 10, 15⟩ ∧
    (∀ s : String, s.toList.contains '/' = true →
      parseFecha s = strptimeDMYslash s) ∧
    (∀ (s : String) (f : Fecha), s.toList.contains '/' = false →
      s.toList.contains '-' = true → strptimeYMD s = some f →
      parseFecha s = some f) ∧
    (∀ s : String, s.toList.contains '/' = false →
      s.toList.contains '-' = true → strptimeYMD s = none →
      parseFecha s = strptimeDMYdash s) ∧
    (∀ (mes anio : Nat) (total : ℚ) (row : List String) (monto : ℚ)
      (f : Fecha), 3 ≤ row.length → parseFloat (campo row 2) = some monto →
      parseFecha (pyStrip (campo row 1)) = some f →
      procesarVenta mes anio total row =
        (if f.month = mes ∧ f.year = anio then total + monto else total)) ∧
    (∀ (mes anio : Nat) (total : ℚ) (row : List String) (monto : ℚ),
      parseFloat (campo row 2) = some monto →
      parseFecha (pyStrip (campo row 1)) = none →
      procesarVenta mes anio total row = total) ∧
    (∀ (mes anio : Nat) (total : ℚ) (row : List String),
      parseFloat (campo row 2) = none →
      procesarVenta mes anio total row = total) ∧
    totalVentasPeriodo 10 2010 (some [["h"], ["1", "15/10/2010", "100"]]) = 100 ∧
    totalVentasPeriodo 10 2010 (some [["h"], ["1", "2010-10-15", "100"]]) = 100 ∧
    totalVentasPeriodo 10 2010 (some [["h"], ["1", "15-10-2010", "100"]]) = 100 ∧
    totalVentasPeriodo 10 2010 (some [["h"], ["1", "15/10/2011", "100"]]) = 0 := by
  refine ⟨by decide, by decide, by decide, ?_, ?_, ?_, ?_, ?_, ?_, ?_, ?_, ?_, ?_⟩
  · intro s h
    simp at h
    simp [parseFecha, h]
  · intro s f h1 h2 h3
    simp at h1 h2
    simp [parseFecha, h1, h2, h3]
  · intro s h1 h2 h3
    simp at h1 h2
    simp [parseFecha, h1, h2, h3]
  · intro mes anio total row monto f hlen hm hf
    simp only [procesarVenta, hlen, if_true, hm, hf]
  · intro mes anio total row monto hm hf
    unfold procesarVenta
    by_cases hlen : 3 ≤ row.length <;> simp [hlen, hm, hf]
  · intro mes anio total row hm
    unfold procesarVenta
    by_cases hlen : 3 ≤ row.length <;> simp [hlen, hm]
  · simp [totalVentasPeriodo, procesarVenta, parseFloat, pyStripList,
      parseFloatSigned, parseFloatList, allDigits, natOfDigits, campo, pyStrip,
      parseFecha, strptimeDMYslash, strptimeYMD, strptimeDMYdash, splitOnChar,
      parseCampoNat, parseAnio, mkFecha, diasEnMes, esBisiesto]
  · simp [totalVentasPeriodo, procesarVenta, parseFloat, pyStripList,
      parseFloatSigned, parseFloatList, allDigits, natOfDigits, campo, pyStrip,
      parseFecha, strptimeDMYslash, strptimeYMD, strptimeDMYdash, splitOnChar,
      parseCampoNat, parseAnio, mkFecha, diasEnMes, esBisiesto]
  · simp [totalVentasPeriodo, procesarVenta, parseFloat, pyStripList,
      parseFloatSigned, parseFloatList, allDigits, natOfDigits, campo, pyStrip,
      parseFecha, strptimeDMYslash, strptimeYMD, strptimeDMYdash, splitOnChar,
      parseCampoNat, parseAnio, mkFecha, diasEnMes, esBisiesto]
  · simp [totalVentasPeriodo, procesarVenta, parseFloat, pyStripList,
      parseFloatSigned, parseFloatList, allDigits, natOfDigits, campo, pyStrip,
      parseFecha, strptimeDMYslash, strptimeYMD, strptimeDMYdash, splitOnChar,
      parseCampoNat, parseAnio, mkFecha, diasEnMes, esBisiesto]

theorem claim_C4_witness :
    procesarVenta 10 2010 0 ["1", "15/10/2010", "100"] = 0 + 100 := by
  have h := claim_C4.2.2.2.2.2.2.1 10 2010 0 ["1", "15/10/2010", "100"] 100
    ⟨2010, 10, 15⟩ (by decide)
    (by simp [parseFloat, pyStripList, parseFloatSigned, parseFloatList,
      allDigits, natOfDigits, campo])
    (by decide)
  simpa using h
